import Mathlib

/-!
A shallow embedding of the PR-description validator script
(`.github/scripts/pr-validate-description.js`) of the devopness repository.

The script reads a parsed markdown tree (sections → blocks → list items),
runs three section validators, logs one diagnostic line per `pass`/`fail`
call, and sets the process exit code to 1 on any `fail`.

Modelling conventions:
* JavaScript objects with possibly-absent fields become structures with
  `Option` fields (`none` = the field is absent / `undefined`).
* A JavaScript string field used in a truthiness test (`!x.raw`) is falsy
  both when absent and when it is the empty string; `strTruthy` models this.
* `String.prototype.trim`, `String.prototype.toLowerCase`,
  `String.prototype.includes` and the two regexes (`/<[^>]+>/` and `/#\d+/g`)
  are modelled by executable functions over `List Char` below.
* Each validator returns a `VResult`: the diagnostic lines it printed, in
  order, and whether it threw an uncaught `TypeError` (dereferencing `.trim`
  on an absent `raw`), which aborts the run.
* The process exit flag (`process.exitCode`) is recovered by folding
  `applyLine` over the printed lines: a `fail` line sets it to 1, a `pass`
  line leaves it unchanged, exactly as the script's `fail`/`pass` helpers do.
-/

/-- One checklist/bullet entry: `{ checked: boolean, raw: string }`.
`raw` is `none` when the item carries no `raw` field. -/
structure ListItem where
  checked : Bool
  raw : Option String
deriving DecidableEq

/-- One parsed markdown block: a `type` discriminator (`"list"`, `"text"`, …),
the raw text, and, for list blocks, the item sequence. -/
structure MdBlock where
  type : String
  raw : Option String
  items : Option (List ListItem)
deriving DecidableEq

/-- One PR-template section: an ordered sequence of blocks under `bodies`.
`bodies = none` models a section object without a `bodies` field. -/
structure PRSection where
  bodies : Option (List MdBlock)
deriving DecidableEq

/-- The top-level payload decoded from `PR_DESCRIPTION_JSON`: the three
sections the script reads, each possibly absent. -/
structure ParsedDescription where
  Description_of_changes : Option PRSection
  GitHub_issues_resolved_by_this_PR : Option PRSection
  Quality_Assurance : Option PRSection
deriving DecidableEq

/-- One line written to the diagnostic stream: `fail` prints the ❌ form and
sets the exit flag, `pass` prints the ✅ form. -/
inductive Line where
  | fail (fieldName message : String)
  | pass (fieldName message : String)
deriving DecidableEq

/-- Whether a diagnostic line is a failure line. -/
def Line.isFail : Line → Bool
  | .fail _ _ => true
  | .pass _ _ => false

/-- What one validator invocation did: the diagnostic lines it printed, in
order, and whether it aborted with an uncaught TypeError. -/
structure VResult where
  lines : List Line
  crashed : Bool
deriving DecidableEq

/-- A validator invocation failed iff it printed at least one `fail` line
(the script's `fail` helper both prints and sets the exit flag). -/
def VResult.failed (r : VResult) : Bool := r.lines.any Line.isFail

/-- JavaScript whitespace trimmed by `String.prototype.trim`: tab, LF, VT,
FF, CR, space, NBSP and the BOM (the code points that occur in practice). -/
def isJsWhitespace (c : Char) : Bool :=
  c == ' ' || c == '\t' || c == '\n' || c == '\r' ||
  c == '\x0b' || c == '\x0c' || c == Char.ofNat 160 || c == Char.ofNat 65279

/-- Strip JavaScript whitespace from both ends of a character list. -/
def trimChars (l : List Char) : List Char :=
  ((l.dropWhile isJsWhitespace).reverse.dropWhile isJsWhitespace).reverse

/-- `s.trim()` of JavaScript, over the embedded strings. -/
def jsTrim (s : String) : String := String.mk (trimChars s.toList)

/-- `s.toLowerCase()` of JavaScript (the payloads are ASCII, where
`Char.toLower` agrees with JavaScript). -/
def jsToLower (s : String) : String := String.mk (s.toList.map Char.toLower)

/-- `needle` is a prefix of `hay` (character lists). -/
def startsWith : List Char → List Char → Bool
  | [], _ => true
  | _ :: _, [] => false
  | a :: as, b :: bs => a == b && startsWith as bs

/-- `needle` occurs as a contiguous substring of `hay`:
JavaScript's `hay.includes(needle)` over character lists. -/
def infixOf (needle : List Char) : List Char → Bool
  | [] => startsWith needle []
  | b :: bs => startsWith needle (b :: bs) || infixOf needle bs

/-- `hay.includes(needle)` of JavaScript. -/
def jsIncludes (hay needle : String) : Bool := infixOf needle.toList hay.toList

/-- Truthiness of an optional string field: JavaScript `!x` is true exactly
when the field is absent or the empty string. -/
def strTruthy : Option String → Bool
  | none => false
  | some s => s != ""

/-- After a `<`, the regex `<[^>]+>` matches iff the next character exists
and is not `>`, and some later `>` closes the bracket (the first `>` after
at least one non-`>` character). -/
def angleCloses : List Char → Bool
  | [] => false
  | d :: ds => d != '>' && ds.any (fun e => e == '>')

/-- `/<[^>]+>/.test(l)`: some `<` in `l` is followed by at least one
non-`>` character and then a `>`. -/
def hasAngleMatch : List Char → Bool
  | [] => false
  | c :: cs => (c == '<' && angleCloses cs) || hasAngleMatch cs

/-- `/<[^>]+>/.test(s)`: the angle-bracket placeholder test of
`validateDescriptionOfChanges`. -/
def hasPlaceholder (s : String) : Bool := hasAngleMatch s.toList

/-- Worker for `extractIssues`: scan for `#`, take the maximal run of
digits after it; with no digit the scan resumes at the next character,
exactly as `/#\d+/g` advances. The fuel argument only bounds recursion
(the scanned list shrinks at every step, so `l.length` fuel suffices). -/
def extractIssuesGo : Nat → List Char → List String
  | 0, _ => []
  | _, [] => []
  | fuel + 1, c :: cs =>
    if c == '#' then
      let ds := cs.takeWhile Char.isDigit
      if ds.isEmpty then extractIssuesGo fuel cs
      else String.mk ('#' :: ds) :: extractIssuesGo fuel (cs.drop ds.length)
    else extractIssuesGo fuel cs

/-- `s.match(/#\d+/g) ?? []`: every `#`-then-digits reference of `s`, in
order of appearance, duplicates retained. -/
def extractIssues (l : List Char) : List String := extractIssuesGo l.length l

/-- Literal `SUCCESS_CRITERIA_TITLE` of the script: the unedited QA
template heading. -/
def SUCCESS_CRITERIA_TITLE : String :=
  "- Once the changes in this PR are merged and deployed, success criteria is:"

/-- MissingSection message of `validateDescriptionOfChanges`. -/
def msgDescMissingSection : String :=
  "Invalid PR template format. The \x27Description of changes\x27 section is missing or malformed."

/-- NoConcreteChanges message of `validateDescriptionOfChanges`. -/
def msgNoConcreteChanges : String :=
  "Pull requests must include at least one specific change in the \x27Description of changes\x27 field. Template placeholders are not valid descriptions."

/-- ChangesNotMeaningful message of `validateDescriptionOfChanges`. -/
def msgChangesNotMeaningful : String :=
  "Description items must contain meaningful content (more than just a few characters)."

/-- MissingSection message of `validateResolvedIssuesSection`. -/
def msgIssuesMissingSection : String :=
  "Invalid PR template format. The \x27GitHub issues resolved by this PR\x27 section is missing or malformed."

/-- MissingIssueList message of `validateResolvedIssuesSection`. -/
def msgMissingIssueList : String :=
  "The \x27GitHub issues resolved by this PR\x27 section must contain a list of resolved issues."

/-- MissingResolvedIssues message, which interpolates the offending raw text. -/
def msgMissingResolvedIssues (raw : String) : String :=
  "Pull requests must specify at least one resolved GitHub issue (e.g., #123) or explicitly state \"N/A\" if no issue applies, in field \"" ++ raw ++ "\""

/-- MissingSection message of `validateQaSection`. -/
def msgQaMissingSection : String :=
  "Invalid PR template format. The \x27Quality Assurance\x27 section is missing or malformed."

/-- MissingChecklist message of `validateQaSection`. -/
def msgMissingChecklist : String :=
  "The \x27Quality Assurance\x27 section must contain a list with success criteria."

/-- EmptyChecklist message of `validateQaSection`. -/
def msgEmptyChecklist : String :=
  "The success criteria list in the \x27Quality Assurance\x27 section cannot be empty."

/-- InvalidCriteriaFormat message of `validateQaSection`. -/
def msgInvalidCriteriaFormat : String :=
  "Invalid success criteria format in the \x27Quality Assurance\x27 section."

/-- PlaceholderCriteria message, which interpolates the raw text. -/
def msgPlaceholderCriteria (raw : String) : String :=
  "Pull requests must have a short description of success criteria, in field \"" ++ raw ++ "\""

/-- The list items of all list-typed blocks, flattened in order:
`bodies.filter(type === "list").flatMap(items || [])`. -/
def listItemsOf (bodies : List MdBlock) : List ListItem :=
  (bodies.filter (fun b => b.type == "list")).flatMap (fun b => b.items.getD [])

/-- The first filter of `validateDescriptionOfChanges`: keep an item iff its
`raw` is truthy, trims to a non-empty string and the trimmed text has no
angle-bracket placeholder. -/
def descItemKeep (item : ListItem) : Bool :=
  match item.raw with
  | none => false
  | some r =>
    if r == "" then false
    else decide ((jsTrim r).length > 0) && !hasPlaceholder (jsTrim r)

/-- The second filter of `validateDescriptionOfChanges`: trimmed raw length
strictly greater than 10. Survivors of the first filter always have a raw
text; an absent raw is mapped to `false` (that branch is unreachable there). -/
def descItemMeaningful (item : ListItem) : Bool :=
  match item.raw with
  | none => false
  | some r => decide ((jsTrim r).length > 10)

/-- The `validateDescriptionOfChanges` function of the script. -/
def validateDescriptionOfChanges (s : Option PRSection) : VResult :=
  match s.bind PRSection.bodies with
  | none => ⟨[Line.fail "Description of Changes" msgDescMissingSection], false⟩
  | some bodies =>
    let changes := (listItemsOf bodies).filter descItemKeep
    if changes.isEmpty then
      ⟨[Line.fail "Description of Changes" msgNoConcreteChanges], false⟩
    else
      let meaningfulChanges := changes.filter descItemMeaningful
      if meaningfulChanges.isEmpty then
        ⟨[Line.fail "Description of Changes" msgChangesNotMeaningful], false⟩
      else
        ⟨[Line.pass "Description of Changes"
            (String.intercalate "\n    > "
              (meaningfulChanges.map (fun item => item.raw.getD "")))], false⟩

/-- The `validateResolvedIssuesSection` function of the script. The pass
message renders the match array the way a template literal does (joined
with commas), or the literal "N/A" when no reference was found. -/
def validateResolvedIssuesSection (s : Option PRSection) : VResult :=
  match s.bind PRSection.bodies with
  | none => ⟨[Line.fail "GitHub Issues" msgIssuesMissingSection], false⟩
  | some bodies =>
    match (bodies.filter (fun b => b.type == "list")).head? with
    | none => ⟨[Line.fail "GitHub Issues" msgMissingIssueList], false⟩
    | some issuesCheckList =>
      match issuesCheckList.raw with
      | none => ⟨[Line.fail "GitHub Issues" msgMissingIssueList], false⟩
      | some r =>
        if r == "" then ⟨[Line.fail "GitHub Issues" msgMissingIssueList], false⟩
        else
          let issueList := extractIssues r.toList
          if issueList.isEmpty && !(jsIncludes (jsToLower r) "n/a") then
            ⟨[Line.fail "Missing Resolved Issues" (msgMissingResolvedIssues r)], false⟩
          else
            ⟨[Line.pass "Issues resolved by this pull request"
                (if issueList.length > 0 then String.intercalate "," issueList
                 else "N/A")], false⟩

/-- The `validateQaSection` function of the script. Neither of its last two
`fail` calls is followed by a `return`, so when the first item's raw text is
absent the function prints the InvalidCriteriaFormat failure and then throws
(dereferencing `.trim` on `undefined`, modelled by `crashed := true`), and
when the trimmed raw text equals the template heading it prints the
PlaceholderCriteria failure and then also prints the pass line. -/
def validateQaSection (s : Option PRSection) : VResult :=
  match s.bind PRSection.bodies with
  | none => ⟨[Line.fail "Quality Assurance" msgQaMissingSection], false⟩
  | some bodies =>
    match (bodies.filter (fun b => b.type == "list")).head? with
    | none => ⟨[Line.fail "Quality Assurance" msgMissingChecklist], false⟩
    | some qaCheckList =>
      match qaCheckList.items with
      | none => ⟨[Line.fail "Quality Assurance" msgEmptyChecklist], false⟩
      | some [] => ⟨[Line.fail "Quality Assurance" msgEmptyChecklist], false⟩
      | some (successCriteria :: _) =>
        let invalidLines : List Line :=
          if strTruthy successCriteria.raw then []
          else [Line.fail "Quality Assurance" msgInvalidCriteriaFormat]
        match successCriteria.raw with
        | none => ⟨invalidLines, true⟩
        | some r =>
          let placeholderLines : List Line :=
            if jsTrim r == SUCCESS_CRITERIA_TITLE then
              [Line.fail "Success criteria" (msgPlaceholderCriteria r)]
            else []
          ⟨invalidLines ++ placeholderLines ++
             [Line.pass "Success criteria" r], false⟩

/-- The top level of the script: the three validators run in order on their
sections; an uncaught TypeError aborts the run at that point. -/
def runValidation (pd : ParsedDescription) : VResult :=
  let r1 := validateDescriptionOfChanges pd.Description_of_changes
  if r1.crashed then r1
  else
    let r2 := validateResolvedIssuesSection pd.GitHub_issues_resolved_by_this_PR
    if r2.crashed then ⟨r1.lines ++ r2.lines, true⟩
    else
      let r3 := validateQaSection pd.Quality_Assurance
      ⟨r1.lines ++ r2.lines ++ r3.lines, r3.crashed⟩

/-- The effect of one diagnostic line on `process.exitCode`: a `fail` line
sets it to 1, a `pass` line leaves it unchanged. -/
def applyLine (code : Nat) (l : Line) : Nat :=
  match l with
  | Line.fail _ _ => 1
  | Line.pass _ _ => code

/-- The exit flag after a run that printed `lines`, starting from 0. -/
def finalExitFlag (lines : List Line) : Nat := lines.foldl applyLine 0

/-- The observed process exit status: 1 when the run aborted with an
uncaught TypeError (node exits nonzero), otherwise the exit flag. -/
def exitStatus (pd : ParsedDescription) : Nat :=
  let r := runValidation pd
  if r.crashed then 1 else finalExitFlag r.lines

example :
    validateQaSection (some ⟨some [⟨"list", some "x",
      some [⟨false, some "All tests green after deploy"⟩]⟩]⟩) =
    ⟨[Line.pass "Success criteria" "All tests green after deploy"], false⟩ := by
  decide

example :
    validateResolvedIssuesSection (some ⟨some [⟨"list", some "Fixes #42 and #108",
      some []⟩]⟩) =
    ⟨[Line.pass "Issues resolved by this pull request" "#42,#108"], false⟩ := by
  decide

example :
    validateResolvedIssuesSection (some ⟨some [⟨"list", some "No related issue, N/A",
      some []⟩]⟩) =
    ⟨[Line.pass "Issues resolved by this pull request" "N/A"], false⟩ := by
  decide

example :
    validateDescriptionOfChanges (some ⟨some [⟨"list", some "x",
      some [⟨false, some "Fixd"⟩]⟩]⟩) =
    ⟨[Line.fail "Description of Changes" msgChangesNotMeaningful], false⟩ := by
  decide

example :
    validateDescriptionOfChanges (some ⟨some [⟨"list", some "x",
      some [⟨false, some "<describe change here>"⟩, ⟨true, some "Fixed the login bug"⟩]⟩]⟩) =
    ⟨[Line.pass "Description of Changes" "Fixed the login bug"], false⟩ := by
  decide

/-- C1: in `validateQaSection`, when the first item of the first list block
has the unedited template heading as its raw text, the PlaceholderCriteria
failure line AND the pass line are both written by the same invocation (the
`fail` is not followed by a `return`), so the two outcomes are not mutually
exclusive as the specification states. -/
theorem qa_placeholder_fail_and_pass_both_emitted :
    (validateQaSection (some ⟨some [⟨"list", some SUCCESS_CRITERIA_TITLE,
        some [⟨false, some SUCCESS_CRITERIA_TITLE⟩]⟩]⟩)).lines =
      [Line.fail "Success criteria" (msgPlaceholderCriteria SUCCESS_CRITERIA_TITLE),
       Line.pass "Success criteria" SUCCESS_CRITERIA_TITLE] := by
  decide

/-- C2: a single invocation of `validateQaSection`, on a section whose first
checklist item trims to the unedited template heading, writes two diagnostic
lines (one fail, then one pass), not exactly one line per invocation. -/
theorem qa_single_invocation_writes_two_lines :
    ((validateQaSection (some ⟨some [⟨"list", some "qa checklist",
        some [⟨true, some ("  " ++ SUCCESS_CRITERIA_TITLE)⟩]⟩]⟩)).lines).length = 2 := by
  decide

/-- C3: when the first item of the first list block of the QA section has no
raw text, `validateQaSection` writes the InvalidCriteriaFormat failure line
and does not return there: the placeholder check dereferences the absent raw
text, so the invocation aborts with an uncaught TypeError (`crashed`). -/
theorem qa_missing_raw_fail_then_crash (sec : PRSection) (bs : List MdBlock)
    (blk : MdBlock) (it : ListItem) (tl : List ListItem)
    (h1 : sec.bodies = some bs)
    (h2 : (bs.filter (fun b => b.type == "list")).head? = some blk)
    (h3 : blk.items = some (it :: tl))
    (h4 : it.raw = none) :
    validateQaSection (some sec) =
      ⟨[Line.fail "Quality Assurance" msgInvalidCriteriaFormat], true⟩ := by
  obtain ⟨b⟩ := sec
  simp only [PRSection.mk.injEq] at h1
  subst h1
  simp [validateQaSection, h2, h3, h4, strTruthy]

/-- Witness for C3: a concrete QA section whose first checklist item has no
raw field makes the validator print the failure and then crash. -/
theorem qa_missing_raw_fail_then_crash_witness :
    validateQaSection (some ⟨some [⟨"list", some "qa", some [⟨false, none⟩]⟩]⟩) =
      ⟨[Line.fail "Quality Assurance" msgInvalidCriteriaFormat], true⟩ :=
  qa_missing_raw_fail_then_crash _ _ _ _ _ rfl rfl rfl rfl

/-- C7: each of the three validators, given a section value that is absent
or has no `bodies` field, fails with its MissingSection message and returns
at once, its result a constant that inspects no further field. -/
theorem missing_section_fails_each_validator :
    (∀ s : Option PRSection, (s = none ∨ ∃ sec, s = some sec ∧ sec.bodies = none) →
      validateDescriptionOfChanges s =
        ⟨[Line.fail "Description of Changes" msgDescMissingSection], false⟩) ∧
    (∀ s : Option PRSection, (s = none ∨ ∃ sec, s = some sec ∧ sec.bodies = none) →
      validateResolvedIssuesSection s =
        ⟨[Line.fail "GitHub Issues" msgIssuesMissingSection], false⟩) ∧
    (∀ s : Option PRSection, (s = none ∨ ∃ sec, s = some sec ∧ sec.bodies = none) →
      validateQaSection s =
        ⟨[Line.fail "Quality Assurance" msgQaMissingSection], false⟩) := by
  refine ⟨?_, ?_, ?_⟩ <;>
    rintro s (rfl | ⟨⟨b⟩, rfl, hb⟩) <;>
    first
      | rfl
      | (simp only [PRSection.mk.injEq] at hb ⊢
         subst hb
         rfl)

/-- C8: for a QA section whose `bodies` is present, `validateQaSection`
fails with MissingChecklist when no list-typed block exists, and fails with
EmptyChecklist when the first list-typed block's item sequence is absent or
empty, in both cases returning without inspecting any item. -/
theorem qa_checklist_guards :
    (∀ bs : List MdBlock, (bs.filter (fun b => b.type == "list")).head? = none →
      validateQaSection (some ⟨some bs⟩) =
        ⟨[Line.fail "Quality Assurance" msgMissingChecklist], false⟩) ∧
    (∀ (bs : List MdBlock) (blk : MdBlock),
      (bs.filter (fun b => b.type == "list")).head? = some blk →
      (blk.items = none ∨ blk.items = some []) →
      validateQaSection (some ⟨some bs⟩) =
        ⟨[Line.fail "Quality Assurance" msgEmptyChecklist], false⟩) := by
  constructor
  · intro bs h
    simp [validateQaSection, h]
  · rintro bs blk h (hi | hi) <;> simp [validateQaSection, h, hi]

/-- `validateDescriptionOfChanges` never throws: every branch returns. -/
lemma validateDescriptionOfChanges_not_crashed (s : Option PRSection) :
    (validateDescriptionOfChanges s).crashed = false := by
  unfold validateDescriptionOfChanges
  split
  · rfl
  · dsimp only
    split
    · rfl
    · split <;> rfl

/-- `validateResolvedIssuesSection` never throws: every branch returns. -/
lemma validateResolvedIssuesSection_not_crashed (s : Option PRSection) :
    (validateResolvedIssuesSection s).crashed = false := by
  unfold validateResolvedIssuesSection
  split
  · rfl
  · split
    · rfl
    · split
      · rfl
      · split
        · rfl
        · dsimp only
          split <;> rfl

/-- When `validateQaSection` throws, it has already printed the
InvalidCriteriaFormat failure line, so the invocation counts as failed. -/
lemma validateQaSection_crashed_failed (s : Option PRSection) :
    (validateQaSection s).crashed = true → (validateQaSection s).failed = true := by
  unfold validateQaSection
  split
  · intro h; exact Bool.noConfusion h
  · split
    · intro h; exact Bool.noConfusion h
    · split
      · intro h; exact Bool.noConfusion h
      · intro h; exact Bool.noConfusion h
      · dsimp only
        split
        · intro _
          rename_i hraw _
          simp only [hraw]
          decide
        · intro h; exact Bool.noConfusion h

/-- The full run concatenates the three validators' lines in order; only the
QA validator can abort the run. -/
lemma runValidation_eq (pd : ParsedDescription) :
    runValidation pd =
      ⟨(validateDescriptionOfChanges pd.Description_of_changes).lines ++
         (validateResolvedIssuesSection pd.GitHub_issues_resolved_by_this_PR).lines ++
         (validateQaSection pd.Quality_Assurance).lines,
       (validateQaSection pd.Quality_Assurance).crashed⟩ := by
  simp [runValidation, validateDescriptionOfChanges_not_crashed,
    validateResolvedIssuesSection_not_crashed]

/-- Folding the exit-flag update over a line list yields 1 exactly when some
failure line occurs, and otherwise returns the initial flag unchanged. -/
lemma foldl_applyLine (l : List Line) (c : Nat) :
    l.foldl applyLine c = if l.any Line.isFail then 1 else c := by
  induction l generalizing c with
  | nil => rfl
  | cons x xs ih =>
    cases x <;> simp [applyLine, Line.isFail, ih]

/-- The exit flag of a three-validator run is zero exactly when none of the
three line lists holds a failure line. -/
lemma ite_append_any_eq_zero (x y z : List Line) :
    ((if ((x ++ y ++ z).any Line.isFail) = true then (1 : Nat) else 0) = 0) ↔
      (x.any Line.isFail = false ∧ y.any Line.isFail = false ∧
       z.any Line.isFail = false) := by
  rw [List.any_append, List.any_append]
  cases hx : x.any Line.isFail <;> cases hy : y.any Line.isFail <;>
    cases hz : z.any Line.isFail <;> simp

/-- C4: the exit flag starts at zero, every `fail` line sets it to 1, no
`pass` line changes it, and the observed process exit status is zero exactly
when each of the three section checks passed (printed no failure line). -/
theorem exit_flag_monotone_zero_iff_all_pass :
    (∀ (c : Nat) (f m : String), applyLine c (Line.fail f m) = 1) ∧
    (∀ (c : Nat) (f m : String), applyLine c (Line.pass f m) = c) ∧
    finalExitFlag [] = 0 ∧
    (∀ pd : ParsedDescription, exitStatus pd = 0 ↔
      ((validateDescriptionOfChanges pd.Description_of_changes).failed = false ∧
       (validateResolvedIssuesSection pd.GitHub_issues_resolved_by_this_PR).failed = false ∧
       (validateQaSection pd.Quality_Assurance).failed = false)) := by
  refine ⟨fun _ _ _ => rfl, fun _ _ _ => rfl, rfl, fun pd => ?_⟩
  have hrun := runValidation_eq pd
  simp only [exitStatus, hrun]
  by_cases hc : (validateQaSection pd.Quality_Assurance).crashed = true
  · rw [if_pos hc]
    constructor
    · intro h; exact absurd h one_ne_zero
    · rintro ⟨-, -, h3⟩
      have := validateQaSection_crashed_failed _ hc
      rw [h3] at this
      exact Bool.noConfusion this
  · rw [Bool.not_eq_true] at hc
    simp only [hc, Bool.false_eq_true, if_false, finalExitFlag, foldl_applyLine,
      VResult.failed]
    exact ite_append_any_eq_zero _ _ _

/-- A description-of-changes check that set no failure printed exactly one
pass line under its display name. -/
lemma validateDescriptionOfChanges_pass_shape (s : Option PRSection)
    (h : (validateDescriptionOfChanges s).failed = false) :
    ∃ m, validateDescriptionOfChanges s =
      ⟨[Line.pass "Description of Changes" m], false⟩ := by
  rcases hb : s.bind PRSection.bodies with - | bodies
  · simp [validateDescriptionOfChanges, hb, VResult.failed, Line.isFail] at h
  · simp only [validateDescriptionOfChanges, hb] at h ⊢
    split at h
    · simp [VResult.failed, Line.isFail] at h
    · split at h
      · simp [VResult.failed, Line.isFail] at h
      · rename_i h1 h2
        rw [if_neg h1, if_neg h2]
        exact ⟨_, rfl⟩

/-- A resolved-issues check that set no failure printed exactly one pass
line under its display name. -/
lemma validateResolvedIssuesSection_pass_shape (s : Option PRSection)
    (h : (validateResolvedIssuesSection s).failed = false) :
    ∃ m, validateResolvedIssuesSection s =
      ⟨[Line.pass "Issues resolved by this pull request" m], false⟩ := by
  rcases hb : s.bind PRSection.bodies with - | bodies
  · simp [validateResolvedIssuesSection, hb, VResult.failed, Line.isFail] at h
  · simp only [validateResolvedIssuesSection, hb] at h ⊢
    split at h
    · simp [VResult.failed, Line.isFail] at h
    · split at h
      · simp [VResult.failed, Line.isFail] at h
      · split at h
        · simp [VResult.failed, Line.isFail] at h
        · rename_i hre
          rw [if_neg hre]
          split at h
          · simp [VResult.failed, Line.isFail] at h
          · rename_i hcond
            rw [if_neg hcond]
            exact ⟨_, rfl⟩

/-- A QA check that set no failure printed exactly one pass line under its
display name (and did not crash). -/
lemma validateQaSection_pass_shape (s : Option PRSection)
    (h : (validateQaSection s).failed = false) :
    ∃ m, validateQaSection s = ⟨[Line.pass "Success criteria" m], false⟩ := by
  rcases hb : s.bind PRSection.bodies with - | bodies
  · simp [validateQaSection, hb, VResult.failed, Line.isFail] at h
  · simp only [validateQaSection, hb] at h ⊢
    split at h
    · simp [VResult.failed, Line.isFail] at h
    · split at h
      · simp [VResult.failed, Line.isFail] at h
      · simp [VResult.failed, Line.isFail] at h
      · split at h
        · rename_i hraw
          simp [hraw, strTruthy, VResult.failed, Line.isFail] at h
        · rename_i r hr
          rw [hr] at h ⊢
          split at h
          · rename_i ht
            split at h
            · simp [VResult.failed, Line.isFail] at h
            · rename_i hph
              exact ⟨r, by simp [ht, hph]⟩
          · simp [VResult.failed, Line.isFail] at h

/-- C9: when every section satisfies its validator (no failure line is
printed), the full run emits exactly three pass lines, in the order
Description of Changes, then resolved issues, then QA success criteria, and
the process exits with status zero. -/
theorem all_pass_three_lines_in_order_exit_zero (pd : ParsedDescription)
    (h1 : (validateDescriptionOfChanges pd.Description_of_changes).failed = false)
    (h2 : (validateResolvedIssuesSection pd.GitHub_issues_resolved_by_this_PR).failed = false)
    (h3 : (validateQaSection pd.Quality_Assurance).failed = false) :
    (∃ m1 m2 m3, runValidation pd =
      ⟨[Line.pass "Description of Changes" m1,
        Line.pass "Issues resolved by this pull request" m2,
        Line.pass "Success criteria" m3], false⟩) ∧
    exitStatus pd = 0 := by
  obtain ⟨m1, e1⟩ := validateDescriptionOfChanges_pass_shape _ h1
  obtain ⟨m2, e2⟩ := validateResolvedIssuesSection_pass_shape _ h2
  obtain ⟨m3, e3⟩ := validateQaSection_pass_shape _ h3
  have hrun := runValidation_eq pd
  rw [e1, e2, e3] at hrun
  simp only [List.cons_append, List.nil_append] at hrun
  refine ⟨⟨m1, m2, m3, hrun⟩, ?_⟩
  simp only [exitStatus, hrun]
  rfl

/-- A concrete payload whose three sections all satisfy their validators. -/
def pdAllPass : ParsedDescription :=
  ⟨some ⟨some [⟨"list", some "changes", some [⟨false, some "Fixed the login bug"⟩]⟩]⟩,
   some ⟨some [⟨"list", some "Fixes #42 and #108", some []⟩]⟩,
   some ⟨some [⟨"list", some "qa", some [⟨true, some "All tests green after deploy"⟩]⟩]⟩⟩

/-- Witness for C9: on a concrete all-valid payload the run prints the three
pass lines in order and exits with status zero. -/
theorem all_pass_three_lines_in_order_exit_zero_witness :
    (∃ m1 m2 m3, runValidation pdAllPass =
      ⟨[Line.pass "Description of Changes" m1,
        Line.pass "Issues resolved by this pull request" m2,
        Line.pass "Success criteria" m3], false⟩) ∧
    exitStatus pdAllPass = 0 :=
  all_pass_three_lines_in_order_exit_zero pdAllPass (by decide) (by decide) (by decide)

/-- Spec wording of the placeholder pattern: the text matches `<[^>]+>`
somewhere iff it splits as a prefix, `<`, a non-empty run of non-`>`
characters, `>`, and a suffix. -/
def SpecAngleOccur (l : List Char) : Prop :=
  ∃ p m q, l = p ++ '<' :: (m ++ '>' :: q) ∧ m ≠ [] ∧ ∀ c ∈ m, c ≠ '>'

/-- Split a character list at its first `>`. -/
lemma exists_first_gt (ds : List Char) (h : ds.any (fun e => e == '>') = true) :
    ∃ u v, ds = u ++ '>' :: v ∧ ∀ x ∈ u, x ≠ '>' := by
  induction ds with
  | nil => simp at h
  | cons x xs ih =>
    by_cases hx : x = '>'
    · exact ⟨[], xs, by simp [hx], by simp⟩
    · rw [List.any_cons] at h
      have h' : xs.any (fun e => e == '>') = true := by
        rcases Bool.or_eq_true_iff.mp h with h0 | h0
        · exact absurd (beq_iff_eq.mp h0) hx
        · exact h0
      obtain ⟨u, v, hsplit, hu⟩ := ih h'
      refine ⟨x :: u, v, by simp [hsplit], ?_⟩
      intro y hy
      rcases List.mem_cons.mp hy with rfl | hy'
      · exact hx
      · exact hu y hy'

/-- The executable test of `/<[^>]+>/` agrees with the spec wording. -/
lemma hasAngleMatch_iff (l : List Char) :
    hasAngleMatch l = true ↔ SpecAngleOccur l := by
  induction l with
  | nil =>
    simp only [hasAngleMatch, SpecAngleOccur]
    constructor
    · intro h; exact Bool.noConfusion h
    · rintro ⟨p, m, q, hl, -, -⟩
      exact absurd hl (by simp)
  | cons c cs ih =>
    rw [hasAngleMatch]
    constructor
    · intro h
      rcases Bool.or_eq_true_iff.mp h with h0 | h0
      · obtain ⟨hc, hcl⟩ := Bool.and_eq_true_iff.mp h0
        have hc' : c = '<' := beq_iff_eq.mp hc
        rcases hds : cs with - | ⟨d, ds⟩
        · rw [hds] at hcl; exact absurd hcl (by simp [angleCloses])
        · rw [hds] at hcl
          simp only [angleCloses, Bool.and_eq_true_iff] at hcl
          obtain ⟨hd, hany⟩ := hcl
          obtain ⟨u, v, hsplit, hu⟩ := exists_first_gt ds hany
          refine ⟨[], d :: u, v, ?_, by simp, ?_⟩
          · simp [hc', hsplit]
          · intro y hy
            rcases List.mem_cons.mp hy with rfl | hy'
            · exact bne_iff_ne.mp hd
            · exact hu y hy'
      · obtain ⟨p, m, q, hl, hm, hmem⟩ := ih.mp h0
        exact ⟨c :: p, m, q, by simp [hl], hm, hmem⟩
    · rintro ⟨p, m, q, hl, hm, hmem⟩
      rcases p with - | ⟨a, p'⟩
      · simp only [List.nil_append, List.cons.injEq] at hl
        obtain ⟨rfl, hcs⟩ := hl
        apply Bool.or_eq_true_iff.mpr
        left
        apply Bool.and_eq_true_iff.mpr
        refine ⟨by simp, ?_⟩
        rcases m with - | ⟨e, m'⟩
        · exact absurd rfl hm
        · rw [hcs]
          simp only [List.cons_append, angleCloses, Bool.and_eq_true_iff]
          refine ⟨bne_iff_ne.mpr (hmem e (by simp)), ?_⟩
          apply List.any_eq_true.mpr
          exact ⟨'>', by simp, by simp⟩
      · simp only [List.cons_append, List.cons.injEq] at hl
        obtain ⟨rfl, hcs⟩ := hl
        apply Bool.or_eq_true_iff.mpr
        right
        exact ih.mpr ⟨p', m, q, hcs, hm, hmem⟩

/-- A string differs from the empty string exactly when its length is
positive. -/
lemma string_ne_empty_iff_length_pos (s : String) : s ≠ "" ↔ 0 < s.length := by
  rcases s with ⟨l⟩
  cases l with
  | nil => simp
  | cons a as =>
    constructor
    · intro _
      simp [String.length]
    · intro _ h
      exact List.noConfusion (congrArg String.data h)

/-- The first item filter of the description validator agrees with the spec
wording: keep exactly the items with a raw text whose trimmed form is
non-empty and matches no angle-bracket placeholder. -/
lemma descItemKeep_iff (it : ListItem) :
    descItemKeep it = true ↔
      ∃ r, it.raw = some r ∧ jsTrim r ≠ "" ∧ ¬ SpecAngleOccur (jsTrim r).toList := by
  rcases it with ⟨c, ro⟩
  rcases ro with - | r
  · constructor
    · intro h; exact Bool.noConfusion h
    · rintro ⟨r, hr, -⟩; exact Option.noConfusion hr
  · constructor
    · intro h
      simp only [descItemKeep] at h
      by_cases hr : r = ""
      · rw [if_pos (by simp [hr])] at h; exact Bool.noConfusion h
      · rw [if_neg (by simp [hr])] at h
        obtain ⟨hlen, hph⟩ := Bool.and_eq_true_iff.mp h
        refine ⟨r, rfl, ?_, ?_⟩
        · intro he
          have := of_decide_eq_true hlen
          rw [he] at this
          exact absurd this (by decide)
        · intro hocc
          have hph' : hasPlaceholder (jsTrim r) = true :=
            (hasAngleMatch_iff _).mpr hocc
          rw [hph'] at hph
          exact Bool.noConfusion hph
    · rintro ⟨r', hr', htrim, hocc⟩
      obtain rfl : r = r' := Option.some.inj hr'
      simp only [descItemKeep]
      have hr0 : r ≠ "" := by
        intro h
        exact htrim (by rw [h]; rfl)
      rw [if_neg (by simp [hr0])]
      apply Bool.and_eq_true_iff.mpr
      refine ⟨decide_eq_true ((string_ne_empty_iff_length_pos _).mp htrim), ?_⟩
      have : hasPlaceholder (jsTrim r) = false := by
        cases hpm : hasPlaceholder (jsTrim r)
        · rfl
        · exact absurd ((hasAngleMatch_iff _).mp hpm) hocc
      rw [this]; rfl

/-- The second item filter of the description validator agrees with the
spec wording: keep exactly the items whose trimmed raw length exceeds 10. -/
lemma descItemMeaningful_iff (it : ListItem) :
    descItemMeaningful it = true ↔ ∃ r, it.raw = some r ∧ (jsTrim r).length > 10 := by
  rcases it with ⟨c, ro⟩
  rcases ro with - | r
  · simp [descItemMeaningful]
  · simp [descItemMeaningful]

/-- C5: on a description section with `bodies` present, with S the flattened
list items minus those with empty/absent trimmed raw text and minus those
matching the angle-bracket placeholder pattern anywhere: the validator fails
with NoConcreteChanges when S is empty, fails with ChangesNotMeaningful when
S is non-empty but no item of S has trimmed length over 10, and otherwise
passes, reporting the joined raw text of exactly the items of S whose
trimmed length exceeds 10. -/
theorem validateDescriptionOfChanges_spec :
    (∀ it : ListItem, descItemKeep it = true ↔
       ∃ r, it.raw = some r ∧ jsTrim r ≠ "" ∧ ¬ SpecAngleOccur (jsTrim r).toList) ∧
    (∀ it : ListItem, descItemMeaningful it = true ↔
       ∃ r, it.raw = some r ∧ (jsTrim r).length > 10) ∧
    (∀ bs : List MdBlock,
      ((listItemsOf bs).filter descItemKeep = [] →
        validateDescriptionOfChanges (some ⟨some bs⟩) =
          ⟨[Line.fail "Description of Changes" msgNoConcreteChanges], false⟩) ∧
      ((listItemsOf bs).filter descItemKeep ≠ [] →
        (∀ it ∈ (listItemsOf bs).filter descItemKeep,
          ¬ ∃ r, it.raw = some r ∧ (jsTrim r).length > 10) →
        validateDescriptionOfChanges (some ⟨some bs⟩) =
          ⟨[Line.fail "Description of Changes" msgChangesNotMeaningful], false⟩) ∧
      ((∃ it ∈ (listItemsOf bs).filter descItemKeep,
          ∃ r, it.raw = some r ∧ (jsTrim r).length > 10) →
        validateDescriptionOfChanges (some ⟨some bs⟩) =
          ⟨[Line.pass "Description of Changes"
              (String.intercalate "\n    > "
                ((((listItemsOf bs).filter descItemKeep).filter descItemMeaningful).map
                  (fun it => it.raw.getD "")))], false⟩)) := by
  refine ⟨descItemKeep_iff, descItemMeaningful_iff, fun bs => ⟨?_, ?_, ?_⟩⟩
  · intro h
    simp only [validateDescriptionOfChanges, Option.some_bind]
    rw [h]
    rfl
  · intro hne hall
    have hmf : ((listItemsOf bs).filter descItemKeep).filter descItemMeaningful = [] := by
      apply List.filter_eq_nil_iff.mpr
      intro it hit hm
      exact hall it hit ((descItemMeaningful_iff it).mp hm)
    simp only [validateDescriptionOfChanges, Option.some_bind]
    rw [if_neg (by simp [List.isEmpty_iff, hne]), hmf]
    rfl
  · intro hex
    obtain ⟨it, hit, hr⟩ := hex
    have hm : descItemMeaningful it = true := (descItemMeaningful_iff it).mpr hr
    have hmem : it ∈ ((listItemsOf bs).filter descItemKeep).filter descItemMeaningful :=
      List.mem_filter.mpr ⟨hit, hm⟩
    have hMne := List.ne_nil_of_mem hmem
    have hSne := List.ne_nil_of_mem hit
    simp only [validateDescriptionOfChanges, Option.some_bind]
    rw [if_neg (by rw [List.isEmpty_iff]; exact hSne),
      if_neg (by rw [List.isEmpty_iff]; exact hMne)]

/-- A prefix test agrees with an existential decomposition. -/
lemma startsWith_iff (n : List Char) : ∀ h : List Char,
    startsWith n h = true ↔ ∃ t, h = n ++ t := by
  induction n with
  | nil => intro h; simp [startsWith]
  | cons a as ih =>
    intro h
    cases h with
    | nil =>
      constructor
      · intro hc; exact Bool.noConfusion hc
      · rintro ⟨t, ht⟩; exact absurd ht (by simp)
    | cons b bs =>
      rw [startsWith]
      constructor
      · intro hc
        obtain ⟨hab, hrest⟩ := Bool.and_eq_true_iff.mp hc
        obtain ⟨t, rfl⟩ := (ih bs).mp hrest
        exact ⟨t, by simp [beq_iff_eq.mp hab]⟩
      · rintro ⟨t, ht⟩
        simp only [List.cons_append, List.cons.injEq] at ht
        obtain ⟨rfl, rfl⟩ := ht
        exact Bool.and_eq_true_iff.mpr ⟨by simp, (ih _).mpr ⟨t, rfl⟩⟩

/-- The substring test (JavaScript `includes`) agrees with an existential
decomposition into prefix, needle, suffix. -/
lemma infixOf_iff (n : List Char) : ∀ h : List Char,
    infixOf n h = true ↔ ∃ u v, h = u ++ n ++ v := by
  intro h
  induction h with
  | nil =>
    rw [infixOf, startsWith_iff]
    constructor
    · rintro ⟨t, ht⟩
      exact ⟨[], t, by simp [ht]⟩
    · rintro ⟨u, v, huv⟩
      have hu : u = [] := by
        cases u with
        | nil => rfl
        | cons x xs => exact absurd huv (by simp)
      subst hu
      exact ⟨v, by simpa using huv⟩
  | cons b bs ih =>
    rw [infixOf]
    constructor
    · intro hc
      rcases Bool.or_eq_true_iff.mp hc with h0 | h0
      · obtain ⟨t, ht⟩ := (startsWith_iff n _).mp h0
        exact ⟨[], t, by simp [ht]⟩
      · obtain ⟨u, v, huv⟩ := ih.mp h0
        exact ⟨b :: u, v, by simp [huv]⟩
    · rintro ⟨u, v, huv⟩
      apply Bool.or_eq_true_iff.mpr
      cases u with
      | nil =>
        left
        exact (startsWith_iff n _).mpr ⟨v, by simpa using huv⟩
      | cons x xs =>
        right
        simp only [List.cons_append, List.cons.injEq] at huv
        exact ih.mpr ⟨xs, v, huv.2⟩

/-- C6: on a resolved-issues section with `bodies` present, the validator
inspects only the first list-typed block: it fails with MissingIssueList
when none exists or its raw text is absent or empty; otherwise it extracts
the `#`-digit references of the raw text in order (duplicates retained),
fails with MissingResolvedIssues exactly when no reference exists and the
lowercased raw text does not contain "n/a", and otherwise passes, reporting
the reference list, or the literal "N/A" when the list is empty. -/
theorem validateResolvedIssuesSection_spec :
    (∀ r : String, jsIncludes (jsToLower r) "n/a" = true ↔
       ∃ u v, (jsToLower r).toList = u ++ ('n' :: '/' :: 'a' :: []) ++ v) ∧
    (∀ bs : List MdBlock,
      ((bs.filter (fun b => b.type == "list")).head? = none →
        validateResolvedIssuesSection (some ⟨some bs⟩) =
          ⟨[Line.fail "GitHub Issues" msgMissingIssueList], false⟩) ∧
      (∀ blk, (bs.filter (fun b => b.type == "list")).head? = some blk →
        ((blk.raw = none ∨ blk.raw = some "") →
          validateResolvedIssuesSection (some ⟨some bs⟩) =
            ⟨[Line.fail "GitHub Issues" msgMissingIssueList], false⟩) ∧
        (∀ r, blk.raw = some r → r ≠ "" →
          ((extractIssues r.toList = [] ∧ ¬ jsIncludes (jsToLower r) "n/a" = true →
            validateResolvedIssuesSection (some ⟨some bs⟩) =
              ⟨[Line.fail "Missing Resolved Issues" (msgMissingResolvedIssues r)],
                false⟩) ∧
          (extractIssues r.toList ≠ [] →
            validateResolvedIssuesSection (some ⟨some bs⟩) =
              ⟨[Line.pass "Issues resolved by this pull request"
                  (String.intercalate "," (extractIssues r.toList))], false⟩) ∧
          (extractIssues r.toList = [] ∧ jsIncludes (jsToLower r) "n/a" = true →
            validateResolvedIssuesSection (some ⟨some bs⟩) =
              ⟨[Line.pass "Issues resolved by this pull request" "N/A"], false⟩))))) := by
  refine ⟨fun r => infixOf_iff _ _,
    fun bs => ⟨?_, fun blk hh => ⟨?_, fun r hr hr0 => ⟨?_, ?_, ?_⟩⟩⟩⟩
  · intro h
    simp [validateResolvedIssuesSection, Option.some_bind, h]
  · intro hraw
    rcases hraw with hraw | hraw <;>
      simp [validateResolvedIssuesSection, Option.some_bind, hh, hraw]
  · rintro ⟨hext, hna⟩
    rw [Bool.not_eq_true] at hna
    have hext' : extractIssues r.data = [] := hext
    simp [validateResolvedIssuesSection, Option.some_bind, hh, hr, hr0, hext', hna]
  · intro hext
    have hext' : extractIssues r.data ≠ [] := hext
    have hlen : 0 < (extractIssues r.data).length := List.length_pos.mpr hext'
    simp [validateResolvedIssuesSection, Option.some_bind, hh, hr, hr0, hext', hlen]
  · rintro ⟨hext, hna⟩
    have hext' : extractIssues r.data = [] := hext
    simp [validateResolvedIssuesSection, Option.some_bind, hh, hr, hr0, hext', hna]

/-- Forget the `checked` flag of a checklist item. -/
def ListItem.eraseChecked (it : ListItem) : ListItem := ⟨false, it.raw⟩

/-- Forget the `checked` flags of every item of a block. -/
def MdBlock.eraseChecked (b : MdBlock) : MdBlock :=
  ⟨b.type, b.raw, b.items.map (fun its => its.map ListItem.eraseChecked)⟩

/-- Forget the `checked` flags of every item of a section. -/
def PRSection.eraseChecked (s : PRSection) : PRSection :=
  ⟨s.bodies.map (fun bs => bs.map MdBlock.eraseChecked)⟩

/-- Forget the `checked` flags of every item of a payload. -/
def ParsedDescription.eraseChecked (pd : ParsedDescription) : ParsedDescription :=
  ⟨pd.Description_of_changes.map PRSection.eraseChecked,
   pd.GitHub_issues_resolved_by_this_PR.map PRSection.eraseChecked,
   pd.Quality_Assurance.map PRSection.eraseChecked⟩

/-- Flattening the list items commutes with forgetting `checked` flags. -/
lemma listItemsOf_erase (bs : List MdBlock) :
    listItemsOf (bs.map MdBlock.eraseChecked) =
      (listItemsOf bs).map ListItem.eraseChecked := by
  unfold listItemsOf
  rw [List.filter_map]
  have hcomp : ((fun b => b.type == "list") ∘ MdBlock.eraseChecked) =
      (fun b : MdBlock => b.type == "list") := rfl
  rw [hcomp, List.flatMap_map, List.map_flatMap]
  refine congrArg (List.flatMap _) (funext fun b => ?_)
  rcases b with ⟨t, r, - | its⟩
  · rfl
  · rfl

/-- The description validator never reads `checked`: its result is unchanged
when every flag is forgotten. -/
lemma validateDescriptionOfChanges_erase (s : Option PRSection) :
    validateDescriptionOfChanges (s.map PRSection.eraseChecked) =
      validateDescriptionOfChanges s := by
  rcases s with - | ⟨- | bs⟩
  · rfl
  · rfl
  · show validateDescriptionOfChanges (some ⟨some (bs.map MdBlock.eraseChecked)⟩) =
      validateDescriptionOfChanges (some ⟨some bs⟩)
    simp only [validateDescriptionOfChanges, Option.some_bind]
    rw [listItemsOf_erase, List.filter_map]
    have hkeep : (descItemKeep ∘ ListItem.eraseChecked) = descItemKeep :=
      funext fun it => rfl
    rw [hkeep, List.filter_map]
    have hmean : (descItemMeaningful ∘ ListItem.eraseChecked) = descItemMeaningful :=
      funext fun it => rfl
    rw [hmean, List.map_map]
    have hraw : ((fun item : ListItem => item.raw.getD "") ∘ ListItem.eraseChecked) =
        (fun item : ListItem => item.raw.getD "") := funext fun it => rfl
    rw [hraw]
    have hie : ∀ (l : List ListItem), (l.map ListItem.eraseChecked).isEmpty = l.isEmpty := by
      intro l; cases l <;> rfl
    rw [hie, hie]

/-- The resolved-issues validator never reads `checked`. -/
lemma validateResolvedIssuesSection_erase (s : Option PRSection) :
    validateResolvedIssuesSection (s.map PRSection.eraseChecked) =
      validateResolvedIssuesSection s := by
  rcases s with - | ⟨- | bs⟩
  · rfl
  · rfl
  · show validateResolvedIssuesSection (some ⟨some (bs.map MdBlock.eraseChecked)⟩) =
      validateResolvedIssuesSection (some ⟨some bs⟩)
    simp only [validateResolvedIssuesSection, Option.some_bind]
    rw [List.filter_map]
    have hcomp : ((fun b => b.type == "list") ∘ MdBlock.eraseChecked) =
        (fun b : MdBlock => b.type == "list") := rfl
    rw [hcomp, List.head?_map]
    rcases hh : (bs.filter (fun b => b.type == "list")).head? with - | blk
    · rw [hh]; rfl
    · rw [hh]; rfl

/-- The QA validator never reads `checked`. -/
lemma validateQaSection_erase (s : Option PRSection) :
    validateQaSection (s.map PRSection.eraseChecked) = validateQaSection s := by
  rcases s with - | ⟨- | bs⟩
  · rfl
  · rfl
  · show validateQaSection (some ⟨some (bs.map MdBlock.eraseChecked)⟩) =
      validateQaSection (some ⟨some bs⟩)
    simp only [validateQaSection, Option.some_bind]
    rw [List.filter_map]
    have hcomp : ((fun b => b.type == "list") ∘ MdBlock.eraseChecked) =
        (fun b : MdBlock => b.type == "list") := rfl
    rw [hcomp, List.head?_map]
    rcases hh : (bs.filter (fun b => b.type == "list")).head? with - | blk
    · rw [hh]; rfl
    · rw [hh]
      dsimp only [Option.map, MdBlock.eraseChecked]
      rcases hi : blk.items with - | its
      · rfl
      · rcases its with - | ⟨it, tl⟩
        · rfl
        · rfl

/-- A full run never reads `checked`. -/
lemma runValidation_erase (pd : ParsedDescription) :
    runValidation pd.eraseChecked = runValidation pd := by
  unfold runValidation ParsedDescription.eraseChecked
  rw [validateDescriptionOfChanges_erase, validateResolvedIssuesSection_erase,
    validateQaSection_erase]

/-- C10: no validator reads any item's `checked` flag: two payloads that
agree after all `checked` flags are forgotten produce the same diagnostic
lines and the same exit status. -/
theorem checked_flags_never_read (pd1 pd2 : ParsedDescription)
    (h : pd1.eraseChecked = pd2.eraseChecked) :
    runValidation pd1 = runValidation pd2 ∧ exitStatus pd1 = exitStatus pd2 := by
  have hr : runValidation pd1 = runValidation pd2 := by
    rw [← runValidation_erase pd1, h, runValidation_erase]
  exact ⟨hr, by simp only [exitStatus, hr]⟩

/-- The all-pass payload with every `checked` flag flipped. -/
def pdAllPassFlipped : ParsedDescription :=
  ⟨some ⟨some [⟨"list", some "changes", some [⟨true, some "Fixed the login bug"⟩]⟩]⟩,
   some ⟨some [⟨"list", some "Fixes #42 and #108", some []⟩]⟩,
   some ⟨some [⟨"list", some "qa", some [⟨false, some "All tests green after deploy"⟩]⟩]⟩⟩

/-- Witness for C10: two concrete payloads that differ only in `checked`
flags get identical diagnostics and exit status. -/
theorem checked_flags_never_read_witness :
    runValidation pdAllPass = runValidation pdAllPassFlipped ∧
      exitStatus pdAllPass = exitStatus pdAllPassFlipped :=
  checked_flags_never_read pdAllPass pdAllPassFlipped (by decide)
